import Mathlib

/-!
Verification of the LSP client transport core (src/lsp/parsing.rs and
src/lsp/client.rs).

The wire stream is modelled as a `List Char`: the source works on bytes, and
every input relevant to the claims is ASCII, where bytes and characters
coincide (UTF-8 validation of the body is therefore a no-op in the model).
JSON values (serde_json::Value) are modelled by the mutual inductive `Json`;
object maps are association lists in key order. serde_json uses a BTreeMap,
so the builders below list keys in sorted order, matching the serialized
output of the source. Only integer numbers are modelled: every number
appearing in the protocol messages of the claims is an integer.
-/

/-- Error type mirroring ParseError of src/lsp/parsing.rs. `ioErr` stands for
ParseError::Io, `parseIntErr` for ParseError::ParseInt, `utf8Err` for
ParseError::Utf8, `jsonErr` for ParseError::Json and `unknown` for
ParseError::Unknown (which carries the formatted message string). -/
inductive ParseError where
  | ioErr (msg : String)
  | parseIntErr (s : String)
  | utf8Err
  | jsonErr
  | unknown (msg : String)
deriving DecidableEq, Repr

/-- Header variants, mirroring enum LspHeader of src/lsp/parsing.rs. -/
inductive LspHeader where
  | contentType
  | contentLength (n : Nat)
deriving DecidableEq, Repr

/-- Split a character list on every occurrence of the two-character
separator colon-space, mirroring the Rust call s.split(": ") in
parse_header (src/lsp/parsing.rs line 90). -/
def splitCS : List Char → List (List Char)
  | [] => [[]]
  | ':' :: ' ' :: rest => [] :: splitCS rest
  | c :: rest =>
    match splitCS rest with
    | [] => [[c]]
    | t :: ts => (c :: t) :: ts

/-- Trim of leading and trailing whitespace, mirroring Rust str::trim as used
on ASCII input. -/
def trimChars (s : List Char) : List Char :=
  ((s.dropWhile Char.isWhitespace).reverse.dropWhile Char.isWhitespace).reverse

/-- Lowercasing, mirroring Rust str::to_lowercase on ASCII input. -/
def lowerChars (s : List Char) : List Char :=
  s.map Char.toLower

/-- Decimal parse mirroring usize::from_str_radix(s, 10): all characters must
be digits and at least one digit must be present. (from_str_radix also
accepts a leading plus sign, which no claim exercises.) -/
def digitsToNat (s : List Char) : Option Nat :=
  if s ≠ [] ∧ s.all Char.isDigit then
    some (s.foldl (fun a c => a * 10 + (c.toNat - 48)) 0)
  else none

/-- Embedding of parse_header (src/lsp/parsing.rs lines 89-101): split the
line on every colon-space, trim and lowercase each token, require exactly two
tokens, then match the name against content-type and content-length. -/
def parse_header (s : List Char) : Except ParseError LspHeader :=
  match (splitCS s).map (fun t => lowerChars (trimChars t)) with
  | [name, value] =>
    if name = "content-type".data then .ok .contentType
    else if name = "content-length".data then
      match digitsToNat value with
      | some n => .ok (.contentLength n)
      | none => .error (.parseIntErr (String.mk value))
    else .error (.unknown ("Unknown header: " ++ String.mk s))
  | _ => .error (.unknown ("malformed header: " ++ String.mk s))

/-- Embedding of reader.read_line as used by read_message: consume characters
up to and including the first newline; at end of stream return what remains
without a newline. The returned pair is (line, rest of stream). -/
def readLineChars : List Char → List Char × List Char
  | [] => ([], [])
  | c :: rest =>
    if c = '\n' then ([c], rest)
    else
      let p := readLineChars rest
      (c :: p.1, p.2)

theorem readLineChars_rest_le (s : List Char) : (readLineChars s).2.length ≤ s.length := by
  induction s with
  | nil => simp [readLineChars]
  | cons c rest ih =>
    by_cases h : c = '\n' <;> simp [readLineChars, h]
    exact Nat.le_trans ih (Nat.le_succ _)

theorem readLineChars_progress (s : List Char) (h : trimChars (readLineChars s).1 ≠ []) :
    (readLineChars s).2.length < s.length := by
  cases s with
  | nil => exact absurd rfl h
  | cons c rest =>
    by_cases hc : c = '\n' <;> simp [readLineChars, hc]
    exact Nat.lt_succ_of_le (readLineChars_rest_le rest)

/-- Embedding of the header loop of read_message (src/lsp/parsing.rs lines
62-74): read lines until one whose trim is empty, parsing each header line;
every content-length header overwrites the accumulator. On success returns
the accumulated content length, the line that ended the loop (the source
keeps it in buffer for the missing-header message), and the unread rest of
the stream. -/
def readHeaders (cl : Option Nat) (s : List Char) :
    Except ParseError (Option Nat × List Char × List Char) :=
  if _h : trimChars (readLineChars s).1 = [] then
    .ok (cl, (readLineChars s).1, (readLineChars s).2)
  else
    match parse_header (readLineChars s).1 with
    | .error e => .error e
    | .ok .contentType => readHeaders cl (readLineChars s).2
    | .ok (.contentLength n) => readHeaders (some n) (readLineChars s).2
termination_by s.length
decreasing_by
  all_goals exact readLineChars_progress s _h

/-- Embedding of reader.read_exact into a buffer of n bytes: fails with an
I/O error when the stream ends first. -/
def readExact (n : Nat) (s : List Char) : Except ParseError (List Char × List Char) :=
  if n ≤ s.length then .ok (s.take n, s.drop n)
  else .error (.ioErr "failed to fill whole buffer")

/-- Embedding of read_message (src/lsp/parsing.rs lines 55-83): read header
lines until a blank line, require a content-length, then read exactly that
many bytes as the body. -/
def read_message (s : List Char) : Except ParseError String :=
  match readHeaders none s with
  | .error e => .error e
  | .ok (none, line, _) =>
    .error (.unknown ("missing content-length header: " ++ String.mk line))
  | .ok (some n, _, rest) =>
    match readExact n rest with
    | .error e => .error e
    | .ok (body, _) => .ok (String.mk body)

mutual
/-- Model of serde_json::Value. Object maps are association lists; the
builders below list keys in the sorted order a BTreeMap produces. Only
integer numbers are modelled, matching every number in the claims. -/
inductive Json where
  | null : Json
  | bool (b : Bool) : Json
  | num (n : Int) : Json
  | str (s : String) : Json
  | arr (xs : JsonList) : Json
  | obj (fs : JsonFields) : Json
/-- List of JSON values (array elements). -/
inductive JsonList where
  | nil : JsonList
  | cons (hd : Json) (tl : JsonList) : JsonList
/-- List of JSON object fields in insertion (= sorted, for serde BTreeMap)
order. -/
inductive JsonFields where
  | nil : JsonFields
  | cons (key : String) (val : Json) (tl : JsonFields) : JsonFields
end

/-- Escape of a single character inside a JSON string literal, as serde_json
emits it for the characters that can occur in the claims. -/
def escapeChar (c : Char) : String :=
  if c = '"' then "\\\""
  else if c = '\\' then "\\\\"
  else if c = '\n' then "\\n"
  else if c = '\r' then "\\r"
  else if c = '\t' then "\\t"
  else String.mk [c]

/-- Escape of a full JSON string body. -/
def escapeString (s : String) : String :=
  String.join (s.data.map escapeChar)

mutual
/-- Model of serde_json::to_string: compact rendering with no spaces,
object fields in list order. -/
def renderJson : Json → String
  | .null => "null"
  | .bool true => "true"
  | .bool false => "false"
  | .num n => toString n
  | .str s => "\"" ++ escapeString s ++ "\""
  | .arr xs => "[" ++ renderList xs ++ "]"
  | .obj fs => "\x7b" ++ renderFields fs ++ "\x7d"
/-- Comma-separated rendering of array elements. -/
def renderList : JsonList → String
  | .nil => ""
  | .cons x .nil => renderJson x
  | .cons x (.cons y tl) => renderJson x ++ "," ++ renderList (JsonList.cons y tl)
/-- Comma-separated rendering of object fields. -/
def renderFields : JsonFields → String
  | .nil => ""
  | .cons k v .nil => "\"" ++ escapeString k ++ "\":" ++ renderJson v
  | .cons k v (.cons k2 v2 tl) =>
    "\"" ++ escapeString k ++ "\":" ++ renderJson v ++ "," ++
      renderFields (JsonFields.cons k2 v2 tl)
end

/-- Whitespace skipping for the JSON reader. -/
def skipWs (s : List Char) : List Char :=
  s.dropWhile (fun c => c = ' ' || c = '\n' || c = '\t' || c = '\r')

/-- Read the remainder of a JSON string literal after the opening quote,
handling the simple backslash escapes; returns the decoded characters and
the rest of the input. -/
def parseStrAux (acc : List Char) : List Char → Option (List Char × List Char)
  | [] => none
  | '"' :: rest => some (acc.reverse, rest)
  | '\\' :: c :: rest =>
    if c = '"' then parseStrAux ('"' :: acc) rest
    else if c = '\\' then parseStrAux ('\\' :: acc) rest
    else if c = '/' then parseStrAux ('/' :: acc) rest
    else if c = 'n' then parseStrAux ('\n' :: acc) rest
    else if c = 't' then parseStrAux ('\t' :: acc) rest
    else if c = 'r' then parseStrAux ('\r' :: acc) rest
    else none
  | c :: rest => parseStrAux (c :: acc) rest

/-- Read a run of decimal digits as a Nat. -/
def parseDigits (s : List Char) : Option (Nat × List Char) :=
  let ds := s.takeWhile Char.isDigit
  if ds = [] then none
  else some (ds.foldl (fun a c => a * 10 + (c.toNat - 48)) 0, s.drop ds.length)

/-- Read an optionally negated integer JSON number. -/
def parseNumber (s : List Char) : Option (Json × List Char) :=
  match s with
  | '-' :: rest => (parseDigits rest).map (fun p => (.num (-(p.1 : Int)), p.2))
  | _ => (parseDigits s).map (fun p => (.num (p.1 : Int), p.2))

/-- Append one element at the end of a JsonList. -/
def jsonListSnoc : JsonList → Json → JsonList
  | .nil, v => .cons v .nil
  | .cons x tl, v => .cons x (jsonListSnoc tl v)

/-- Append one field at the end of a JsonFields. -/
def jsonFieldsSnoc : JsonFields → String → Json → JsonFields
  | .nil, k, v => .cons k v .nil
  | .cons k0 v0 tl, k, v => .cons k0 v0 (jsonFieldsSnoc tl k v)

mutual
/-- Recursive-descent JSON reader (model of serde_json deserialization for
the fragments of JSON the protocol uses), with a fuel argument for
termination; callers pass at least the input length plus one. -/
def parseValue : Nat → List Char → Option (Json × List Char)
  | 0, _ => none
  | fuel + 1, s =>
    match skipWs s with
    | 'n' :: 'u' :: 'l' :: 'l' :: rest => some (.null, rest)
    | 't' :: 'r' :: 'u' :: 'e' :: rest => some (.bool true, rest)
    | 'f' :: 'a' :: 'l' :: 's' :: 'e' :: rest => some (.bool false, rest)
    | '"' :: rest => (parseStrAux [] rest).map (fun p => (.str (String.mk p.1), p.2))
    | '[' :: rest =>
      match skipWs rest with
      | ']' :: r2 => some (.arr .nil, r2)
      | _ => parseElems fuel rest .nil
    | '\x7b' :: rest =>
      match skipWs rest with
      | '\x7d' :: r2 => some (.obj .nil, r2)
      | _ => parseMembers fuel rest .nil
    | c :: rest =>
      if c = '-' || c.isDigit then parseNumber (c :: rest) else none
    | [] => none
/-- Read the elements of a non-empty JSON array, accumulating in order. -/
def parseElems : Nat → List Char → JsonList → Option (Json × List Char)
  | 0, _, _ => none
  | fuel + 1, s, acc =>
    match parseValue fuel s with
    | none => none
    | some (v, r) =>
      match skipWs r with
      | ',' :: r2 => parseElems fuel r2 (jsonListSnoc acc v)
      | ']' :: r2 => some (.arr (jsonListSnoc acc v), r2)
      | _ => none
/-- Read the members of a non-empty JSON object, accumulating in order. -/
def parseMembers : Nat → List Char → JsonFields → Option (Json × List Char)
  | 0, _, _ => none
  | fuel + 1, s, acc =>
    match skipWs s with
    | '"' :: rest =>
      match parseStrAux [] rest with
      | none => none
      | some (key, r) =>
        match skipWs r with
        | ':' :: r2 =>
          match parseValue fuel r2 with
          | none => none
          | some (v, r3) =>
            match skipWs r3 with
            | ',' :: r4 => parseMembers fuel r4 (jsonFieldsSnoc acc (String.mk key) v)
            | '\x7d' :: r4 => some (.obj (jsonFieldsSnoc acc (String.mk key) v), r4)
            | _ => none
        | _ => none
    | _ => none
end

/-- Top-level JSON parse of a whole input, requiring only trailing
whitespace after the value, as serde_json::from_str does. -/
def parseJsonTop (s : List Char) : Option Json :=
  match parseValue (s.length + 1) s with
  | some (j, rest) => if skipWs rest = [] then some j else none
  | none => none

/-- Lookup of a key in a JSON object field list. -/
def jsonLookup (key : String) : JsonFields → Option Json
  | .nil => none
  | .cons k v tl => if k = key then some v else jsonLookup key tl

/-- Model of jsonrpc_lite::Error (the RPC error payload object): code,
message and an optional data value. -/
structure RpcError where
  code : Int
  message : String
  data : Option Json

/-- Read an RPC error payload object out of a JSON value, as deserializing
jsonrpc_lite::Error does. -/
def parseRpcError (j : Json) : Option RpcError :=
  match j with
  | .obj fs =>
    match jsonLookup "code" fs, jsonLookup "message" fs with
    | some (.num c), some (.str m) => some ⟨c, m, jsonLookup "data" fs⟩
    | _, _ => none
  | _ => none

/-- Extraction of a numeric message id (jsonrpc_lite Id::Num followed by the
try_into conversion to usize in handle_msg). A string id yields none here:
in handle_msg a string id falls into the catch-all match arm and is ignored,
which is exactly how a none id is treated below. A negative numeric id
(which would make the try_into unwrap panic in the source) is not exercised
by any claim and also yields none. -/
def numericId : Json → Option Nat
  | .num n => if 0 ≤ n then some n.toNat else none
  | _ => none

/-- Result of decoding an inbound body: the triple that handle_msg
(src/lsp/client.rs lines 129-153) matches on, namely get_id, get_result and
get_error of the parsed jsonrpc_lite::JsonRpc value. -/
structure DecodedMsg where
  id : Option Nat
  result : Option Json
  error : Option RpcError

/-- Classification of a parsed JSON body into the JsonRpc variants of the
jsonrpc_lite crate (the external dependency used by handle_msg), following
its untagged deserialization: a body with a method field is a Request (id
present) or Notification (id absent), for which get_result and get_error
both return none; otherwise a body with a result field and an id is a
Success; otherwise a body with a well-formed error field and an id is an
Error response; anything else fails to parse. The jsonrpc version tag is not
validated here; every body in the claims carries the value 2.0. -/
def jsonrpc_classify (j : Json) : Option DecodedMsg :=
  match j with
  | .obj fs =>
    match jsonLookup "method" fs with
    | some _ =>
      match jsonLookup "id" fs with
      | some idv => some ⟨numericId idv, none, none⟩
      | none => some ⟨none, none, none⟩
    | none =>
      match jsonLookup "result" fs with
      | some r =>
        match jsonLookup "id" fs with
        | some idv => some ⟨numericId idv, some r, none⟩
        | none => none
      | none =>
        match jsonLookup "error" fs with
        | some e =>
          match jsonLookup "id" fs, parseRpcError e with
          | some idv, some re => some ⟨numericId idv, none, some re⟩
          | _, _ => none
        | none => none
  | _ => none

/-- Model of JsonRpc::parse followed by get_id, get_result and get_error as
handle_msg performs them; none models a parse error. -/
def jsonrpc_parse (s : String) : Option DecodedMsg :=
  match parseJsonTop s.data with
  | some j => jsonrpc_classify j
  | none => none

/-- State of struct LanguageServer (src/lsp/client.rs lines 31-35): the
pending table maps a request id to its registered callback, and next_id is
the id counter. Callbacks (boxed one-shot closures in the source) are
identified by opaque Nat tokens; invoking one is recorded as an Event.
The outbound writer is modelled at the call sites that use it. usize is
modelled as Nat (no claim exercises counter overflow). -/
structure LanguageServerState where
  pending : List (Nat × Nat)
  next_id : Nat
deriving DecidableEq, Repr

/-- Model of HashMap::get on the pending table. -/
def hmLookup (id : Nat) : List (Nat × Nat) → Option Nat
  | [] => none
  | p :: rest => if p.1 = id then some p.2 else hmLookup id rest

/-- Model of HashMap::remove on the pending table (a HashMap holds at most
one entry per key; removing by key filters every pair with that key). -/
def hmRemove (id : Nat) : List (Nat × Nat) → List (Nat × Nat)
  | [] => []
  | p :: rest => if p.1 = id then hmRemove id rest else p :: hmRemove id rest

/-- Model of HashMap::insert on the pending table: replaces any entry with
the same key. -/
def hmInsert (id cb : Nat) (t : List (Nat × Nat)) : List (Nat × Nat) :=
  (id, cb) :: hmRemove id t

/-- The value a callback is invoked with: Result of serde_json Values in the
source. -/
inductive CallResult where
  | ok (v : Json)
  | err (v : Json)

/-- Observable event: callback token cb, registered under the given id, was
invoked once with the given result. -/
inductive Event where
  | invoked (id : Nat) (cb : Nat) (res : CallResult)

/-- Outcome of one dispatch step (or of a run of steps): the state after it,
the callback invocations it performed in order, and whether it panicked.
A panic in the source aborts the dispatch task, so a panicking step performs
no invocation and leaves the state as it was at the panic point. -/
structure DispatchOut where
  state : LanguageServerState
  events : List Event
  panicked : Bool

/-- Embedding of LanguageServer::handle_response (src/lsp/client.rs lines
78-84): remove the callback for the id from the pending table, panicking
(expect) when the id is absent, and invoke it with Ok(result). -/
def handle_response (st : LanguageServerState) (id : Nat) (result : Json) : DispatchOut :=
  match hmLookup id st.pending with
  | none => ⟨st, [], true⟩
  | some cb => ⟨⟨hmRemove id st.pending, st.next_id⟩, [.invoked id cb (.ok result)], false⟩

/-- Embedding of LanguageServer::handle_error (src/lsp/client.rs lines
86-92): remove the callback for the id, panicking when the id is absent, and
invoke it with Err of the data field of the error, defaulting to Null. -/
def handle_error (st : LanguageServerState) (id : Nat) (e : RpcError) : DispatchOut :=
  match hmLookup id st.pending with
  | none => ⟨st, [], true⟩
  | some cb =>
    ⟨⟨hmRemove id st.pending, st.next_id⟩,
      [.invoked id cb (.err (e.data.getD Json.null))], false⟩

/-- Embedding of the match statement of LanguageServerRef::handle_msg
(src/lsp/client.rs lines 140-152) over the decoded triple (id, result,
error): a numeric id with a result and no error goes to handle_response, a
numeric id with an error and no result goes to handle_error, a numeric id
with both panics, and everything else (notifications, string ids, an id
alone) is ignored. -/
def handle_decoded (st : LanguageServerState) (m : DecodedMsg) : DispatchOut :=
  match m.id, m.result, m.error with
  | some id, some r, none => handle_response st id r
  | some id, none, some e => handle_error st id e
  | some _, some _, some _ => ⟨st, [], true⟩
  | _, _, _ => ⟨st, [], false⟩

/-- Embedding of LanguageServerRef::handle_msg (src/lsp/client.rs lines
129-153) on a raw body string: a body that fails to parse as JSON-RPC is
logged and ignored; otherwise the decoded triple is dispatched. -/
def handle_msg (st : LanguageServerState) (body : String) : DispatchOut :=
  match jsonrpc_parse body with
  | none => ⟨st, [], false⟩
  | some m => handle_decoded st m

/-- The dispatch loop of start_language_server (src/lsp/client.rs lines
176-190) after frame reading and decoding: feed each decoded message to
handle_msg in order; a panic kills the spawned task, so no later message is
dispatched after one. -/
def runLoop (st : LanguageServerState) : List DecodedMsg → DispatchOut
  | [] => ⟨st, [], false⟩
  | m :: ms =>
    let o := handle_decoded st m
    if o.panicked then o
    else
      let o2 := runLoop o.state ms
      ⟨o2.state, o.events ++ o2.events, o2.panicked⟩

/-- The dispatch loop of start_language_server over already-framed body
strings: each body goes through handle_msg (decode included) in order; a
panic kills the spawned task, so no later body is dispatched after one. -/
def run_msg_loop (st : LanguageServerState) : List String → DispatchOut
  | [] => ⟨st, [], false⟩
  | b :: bs =>
    let o := handle_msg st b
    if o.panicked then o
    else
      let o2 := run_msg_loop o.state bs
      ⟨o2.state, o.events ++ o2.events, o2.panicked⟩

/-- Builder for the request value of LanguageServer::send_request
(src/lsp/client.rs lines 57-62): fields in the sorted key order the
serde_json BTreeMap serializes. -/
def request_value (id : Nat) (method : String) (params : Json) : Json :=
  .obj (.cons "id" (.num id)
    (.cons "jsonrpc" (.str "2.0")
      (.cons "method" (.str method)
        (.cons "params" params .nil))))

/-- Embedding of prepare_lsp_json (src/lsp/client.rs lines 38-45): serialize
the value and frame it with a Content-Length header followed by a blank
line. The length is the byte length of the body; every body in the claims is
ASCII, where byte and character counts coincide. -/
def prepare_lsp_json (msg : Json) : String :=
  "Content-Length: " ++ toString (renderJson msg).length ++ "\r\n\r\n" ++ renderJson msg

/-- Outcome of a send operation: the state after it, the frame written to
the peer when the write succeeded, and whether the operation panicked. -/
structure SendOut where
  state : LanguageServerState
  wrote : Option String
  panicked : Bool

/-- Embedding of LanguageServer::send_request (src/lsp/client.rs lines
56-67) together with LanguageServer::write (lines 48-54): build the request
with the current next_id, insert the callback in the pending table under
that id, increment next_id, then serialize and write. writeOk says whether
the underlying stream write succeeds; when it fails, the expect call in
write panics, after the registration has already happened. -/
def send_request (writeOk : Bool) (st : LanguageServerState) (method : String)
    (params : Json) (cb : Nat) : SendOut :=
  let msg := request_value st.next_id method params
  let st2 : LanguageServerState := ⟨hmInsert st.next_id cb st.pending, st.next_id + 1⟩
  if writeOk then ⟨st2, some (prepare_lsp_json msg), false⟩
  else ⟨st2, none, true⟩

/-- Embedding of LanguageServerRef::new (src/lsp/client.rs lines 121-127):
empty pending table, next_id starts at 1. -/
def new_language_server : LanguageServerState := ⟨[], 1⟩

/-- Ids assigned by a sequence of n send_request calls (the callback token
and payload are irrelevant to id allocation). -/
def send_ids : Nat → LanguageServerState → List Nat × LanguageServerState
  | 0, st => ([], st)
  | n + 1, st =>
    let id := st.next_id
    let st2 := (send_request true st "m" Json.null 0).state
    let rest := send_ids n st2
    (id :: rest.1, rest.2)

/-! Helper lemmas about the header loop and the pending table. -/

theorem readHeaders_stop (cl : Option Nat) (s line rest : List Char)
    (he : readLineChars s = (line, rest)) (ht : trimChars line = []) :
    readHeaders cl s = .ok (cl, line, rest) := by
  unfold readHeaders
  simp [he, ht]

theorem readHeaders_step_len (cl : Option Nat) (n : Nat) (s line rest : List Char)
    (he : readLineChars s = (line, rest)) (ht : trimChars line ≠ [])
    (hp : parse_header line = .ok (.contentLength n)) :
    readHeaders cl s = readHeaders (some n) rest := by
  conv_lhs => rw [readHeaders.eq_def]
  simp [he, ht, hp]

theorem readHeaders_step_type (cl : Option Nat) (s line rest : List Char)
    (he : readLineChars s = (line, rest)) (ht : trimChars line ≠ [])
    (hp : parse_header line = .ok .contentType) :
    readHeaders cl s = readHeaders cl rest := by
  conv_lhs => rw [readHeaders.eq_def]
  simp [he, ht, hp]

theorem readHeaders_step_err (cl : Option Nat) (e : ParseError) (s line rest : List Char)
    (he : readLineChars s = (line, rest)) (ht : trimChars line ≠ [])
    (hp : parse_header line = .error e) :
    readHeaders cl s = .error e := by
  conv_lhs => rw [readHeaders.eq_def]
  simp [he, ht, hp]

theorem readLineChars_append (xs rest : List Char) (h : '\n' ∉ xs) :
    readLineChars (xs ++ '\n' :: rest) = (xs ++ ['\n'], rest) := by
  induction xs with
  | nil => simp [readLineChars]
  | cons c tl ih =>
    have hc : c ≠ '\n' := fun hcc => h (hcc ▸ List.mem_cons_self c tl)
    have htl : '\n' ∉ tl := fun hm => h (List.mem_cons_of_mem c hm)
    simp [readLineChars, hc, ih htl]

theorem hmLookup_hmRemove (id : Nat) (t : List (Nat × Nat)) :
    hmLookup id (hmRemove id t) = none := by
  induction t with
  | nil => rfl
  | cons p rest ih =>
    by_cases h : p.1 = id <;> simp [hmRemove, hmLookup, h, ih]

/-! Claim theorems. -/

/-- C1: for every id with a registered pending callback, dispatching an
inbound body that decodes to a Response carrying that numeric id and a
result (and no error) removes the callback from the pending table and
invokes it exactly once with Ok(result); in particular, after a request
allocated id 1, feeding the body with id 1 and result capabilities invokes
that callback with Ok of the capabilities object. -/
theorem c1_response_resolves_pending :
    (∀ (st : LanguageServerState) (id cb : Nat) (r : Json),
      hmLookup id st.pending = some cb →
      handle_decoded st ⟨some id, some r, none⟩ =
        ⟨⟨hmRemove id st.pending, st.next_id⟩, [.invoked id cb (.ok r)], false⟩) ∧
    (send_request true new_language_server "initialize" (Json.obj .nil) 7).state = ⟨[(1, 7)], 2⟩ ∧
    handle_msg ⟨[(1, 7)], 2⟩
        "\x7b\"jsonrpc\":\"2.0\",\"id\":1,\"result\":\x7b\"capabilities\":\x7b\x7d\x7d\x7d" =
      ⟨⟨[], 2⟩, [.invoked 1 7 (.ok (Json.obj (.cons "capabilities" (.obj .nil) .nil)))], false⟩ := by
  refine ⟨?_, rfl, rfl⟩
  intro st id cb r h
  simp [handle_decoded, handle_response, h]

theorem c1_response_resolves_pending_witness :
    hmLookup 1 [(1, 7)] = some 7 ∧
    handle_decoded ⟨[(1, 7)], 2⟩ ⟨some 1, some Json.null, none⟩ =
      ⟨⟨[], 2⟩, [.invoked 1 7 (.ok Json.null)], false⟩ :=
  ⟨rfl, c1_response_resolves_pending.1 ⟨[(1, 7)], 2⟩ 1 7 Json.null rfl⟩

/-- C2 counterexample: on the claimed example body with id 2 and error code
-32601, the callback is invoked with Err(Null), because handle_error passes
error.data (absent here) defaulted to Null, and Null is not the error
payload object the claim promises. -/
theorem c2_error_payload_counterexample :
    handle_msg ⟨[(2, 9)], 3⟩
        "\x7b\"jsonrpc\":\"2.0\",\"id\":2,\"error\":\x7b\"code\":-32601,\"message\":\"not found\"\x7d\x7d" =
      ⟨⟨[], 3⟩, [.invoked 2 9 (.err Json.null)], false⟩ ∧
    CallResult.err Json.null ≠
      CallResult.err (Json.obj (.cons "code" (.num (-32601))
        (.cons "message" (.str "not found") .nil))) := by
  refine ⟨rfl, ?_⟩
  intro h
  injection h with h2
  exact Json.noConfusion h2

/-- C2 (amended): for every id with a registered pending callback,
dispatching a decoded ErrorResponse carrying that numeric id removes the
callback and invokes it exactly once with Err of the data field of the
error object, defaulting to Err(Null) when data is absent; in particular,
for the body with id 2 and error code -32601 and message not-found (no
data), the callback receives Err(Null). -/
theorem c2_error_resolves_with_data_or_null :
    (∀ (st : LanguageServerState) (id cb : Nat) (e : RpcError),
      hmLookup id st.pending = some cb →
      handle_decoded st ⟨some id, none, some e⟩ =
        ⟨⟨hmRemove id st.pending, st.next_id⟩,
          [.invoked id cb (.err (e.data.getD Json.null))], false⟩) ∧
    handle_msg ⟨[(2, 9)], 3⟩
        "\x7b\"jsonrpc\":\"2.0\",\"id\":2,\"error\":\x7b\"code\":-32601,\"message\":\"not found\"\x7d\x7d" =
      ⟨⟨[], 3⟩, [.invoked 2 9 (.err Json.null)], false⟩ := by
  refine ⟨?_, rfl⟩
  intro st id cb e h
  simp [handle_decoded, handle_error, h]

theorem c2_error_resolves_with_data_or_null_witness :
    hmLookup 2 [(2, 9)] = some 9 ∧
    handle_decoded ⟨[(2, 9)], 3⟩ ⟨some 2, none, some ⟨-32601, "not found", none⟩⟩ =
      ⟨⟨[], 3⟩, [.invoked 2 9 (.err Json.null)], false⟩ :=
  ⟨rfl, c2_error_resolves_with_data_or_null.1 ⟨[(2, 9)], 3⟩ 2 9 ⟨-32601, "not found", none⟩ rfl⟩

/-- C3: for any id with a registered callback, the callback fires at most
once: dispatching a Response for the id followed by any second message
carrying the same id (a second Response, an ErrorResponse, or anything else)
invokes the callback exactly once in total and leaves the id absent from the
pending table. The second dispatch for the id finds no pending entry and
panics instead of invoking anything. -/
theorem c3_at_most_once (st : LanguageServerState) (id cb : Nat) (r1 : Json)
    (m2 : DecodedMsg) (h : hmLookup id st.pending = some cb) (h2 : m2.id = some id) :
    (runLoop st [⟨some id, some r1, none⟩, m2]).events = [.invoked id cb (.ok r1)] ∧
    hmLookup id (runLoop st [⟨some id, some r1, none⟩, m2]).state.pending = none := by
  obtain ⟨mid, mres, merr⟩ := m2
  simp only [DecodedMsg.id] at h2
  subst h2
  cases mres <;> cases merr <;>
    simp [runLoop, handle_decoded, handle_response, handle_error, h, hmLookup_hmRemove]

theorem c3_at_most_once_witness :
    hmLookup 1 [(1, 7)] = some 7 ∧
    (DecodedMsg.mk (some 1) (some Json.null) none).id = some 1 ∧
    ((runLoop ⟨[(1, 7)], 2⟩
        [⟨some 1, some (Json.bool true), none⟩, ⟨some 1, some Json.null, none⟩]).events =
      [.invoked 1 7 (.ok (Json.bool true))] ∧
     hmLookup 1 (runLoop ⟨[(1, 7)], 2⟩
        [⟨some 1, some (Json.bool true), none⟩,
          ⟨some 1, some Json.null, none⟩]).state.pending = none) :=
  ⟨rfl, rfl, c3_at_most_once ⟨[(1, 7)], 2⟩ 1 7 (Json.bool true)
    ⟨some 1, some Json.null, none⟩ rfl rfl⟩

/-- C4 counterexample: a frame whose header block contains the unknown
header X-Custom together with a valid Content-Length does not parse; the
unknown header line makes read_message fail, contradicting the claim that
unknown header names are ignored. -/
theorem c4_unknown_header_counterexample :
    read_message ("X-Custom: 1\r\nContent-Length: 2\r\n\r\nhi".data) =
      .error (.unknown "Unknown header: X-Custom: 1\r\n") := by
  unfold read_message
  rw [readHeaders_step_err none (.unknown "Unknown header: X-Custom: 1\r\n") _ _ _
    (by rfl) (by decide) (by rfl)]

/-- C4 (amended): during frame parsing, a header line that splits into
exactly two trimmed case-folded tokens whose name is neither content-length
nor content-type makes parse_header fail with an Unknown-header error, which
read_message propagates, failing the whole frame even when a length header
is also present; unknown header names are an error, not ignored. -/
theorem c4_unknown_header_is_error (s name value : List Char)
    (hs : (splitCS s).map (fun t => lowerChars (trimChars t)) = [name, value])
    (h1 : name ≠ "content-type".data) (h2 : name ≠ "content-length".data) :
    parse_header s = .error (.unknown ("Unknown header: " ++ String.mk s)) := by
  unfold parse_header
  rw [hs]
  simp [h1, h2]

theorem c4_unknown_header_is_error_witness :
    (splitCS "X-Custom: foo".data).map (fun t => lowerChars (trimChars t)) =
      ["x-custom".data, "foo".data] ∧
    "x-custom".data ≠ "content-type".data ∧
    "x-custom".data ≠ "content-length".data ∧
    parse_header "X-Custom: foo".data =
      .error (.unknown ("Unknown header: " ++ String.mk "X-Custom: foo".data)) :=
  ⟨by decide, by decide, by decide,
    c4_unknown_header_is_error "X-Custom: foo".data "x-custom".data "foo".data
      (by decide) (by decide) (by decide)⟩

/-- C5 counterexample: with callbacks registered for ids 1 and 2, the body
carrying id 1 together with both a result member (null) and an error member
is not aborted: it decodes as a Success, so handle_msg resolves the
registered callback with Ok(null) - a nonempty event list - contradicting
the claim that processing of such a message is aborted. -/
theorem c5_processing_not_aborted_counterexample :
    handle_msg ⟨[(1, 7), (2, 8)], 3⟩
        "\x7b\"jsonrpc\":\"2.0\",\"id\":1,\"result\":null,\"error\":\x7b\"code\":-32600,\"message\":\"bad\"\x7d\x7d" =
      ⟨⟨[(2, 8)], 3⟩, [.invoked 1 7 (.ok Json.null)], false⟩ ∧
    ([Event.invoked 1 7 (.ok Json.null)] : List Event) ≠ [] :=
  ⟨rfl, List.cons_ne_nil _ _⟩

theorem jsonrpc_classify_not_both (j : Json) (m : DecodedMsg)
    (h : jsonrpc_classify j = some m) : m.result = none ∨ m.error = none := by
  obtain ⟨mi, mr, me⟩ := m
  cases j
  case obj fs =>
    rcases hm : jsonLookup "method" fs with _ | mv
    · rcases hr : jsonLookup "result" fs with _ | rv
      · rcases he : jsonLookup "error" fs with _ | ev
        · simp [jsonrpc_classify, hm, hr, he] at h
        · rcases hid : jsonLookup "id" fs with _ | idv <;>
            rcases hpe : parseRpcError ev with _ | re <;>
              (simp [jsonrpc_classify, hm, hr, he, hid, hpe] at h; try simp_all)
      · rcases hid : jsonLookup "id" fs with _ | idv <;>
          (simp [jsonrpc_classify, hm, hr, hid] at h; try simp_all)
    · rcases hid : jsonLookup "id" fs with _ | idv <;>
        (simp [jsonrpc_classify, hm, hid] at h; try simp_all)
  all_goals simp [jsonrpc_classify] at h

/-- C5 (amended): a decoded inbound message never carries both a result and
an error: the untagged decode of a body containing both members reads it as
a Success and ignores the error member, so the both-present panic arm of
handle_msg is unreachable through decoding. Dispatching such a body
therefore resolves the registered callback with Ok(result) instead of
aborting processing of the message; the dispatch loop does not crash, and
later frames for other registered ids are still dispatched normally, as the
concrete two-frame run shows. -/
theorem c5_both_members_resolved_as_success :
    (∀ (s : String) (m : DecodedMsg), jsonrpc_parse s = some m →
      m.result = none ∨ m.error = none) ∧
    run_msg_loop ⟨[(1, 7), (2, 8)], 3⟩
        ["\x7b\"jsonrpc\":\"2.0\",\"id\":1,\"result\":null,\"error\":\x7b\"code\":-32600,\"message\":\"bad\"\x7d\x7d",
          "\x7b\"jsonrpc\":\"2.0\",\"id\":2,\"result\":true\x7d"] =
      ⟨⟨[], 3⟩, [.invoked 1 7 (.ok Json.null), .invoked 2 8 (.ok (Json.bool true))], false⟩ := by
  refine ⟨?_, rfl⟩
  intro s m h
  unfold jsonrpc_parse at h
  cases hp : parseJsonTop s.data with
  | none => rw [hp] at h; exact absurd h (by simp)
  | some j => rw [hp] at h; exact jsonrpc_classify_not_both j m h

theorem c5_both_members_resolved_as_success_witness :
    jsonrpc_parse
        "\x7b\"jsonrpc\":\"2.0\",\"id\":1,\"result\":null,\"error\":\x7b\"code\":-32600,\"message\":\"bad\"\x7d\x7d" =
      some ⟨some 1, some Json.null, none⟩ ∧
    ((some Json.null : Option Json) = none ∨ (none : Option RpcError) = none) :=
  ⟨rfl, c5_both_members_resolved_as_success.1
    "\x7b\"jsonrpc\":\"2.0\",\"id\":1,\"result\":null,\"error\":\x7b\"code\":-32600,\"message\":\"bad\"\x7d\x7d"
    ⟨some 1, some Json.null, none⟩ rfl⟩

theorem send_ids_spec (n : Nat) (st : LanguageServerState) :
    (send_ids n st).1 = List.range' st.next_id n ∧
    (send_ids n st).2.next_id = st.next_id + n := by
  induction n generalizing st with
  | zero => simp [send_ids, List.range']
  | succ k ih =>
    have h := ih ⟨hmInsert st.next_id 0 st.pending, st.next_id + 1⟩
    refine ⟨?_, ?_⟩
    · show st.next_id :: (send_ids k ⟨hmInsert st.next_id 0 st.pending, st.next_id + 1⟩).1 =
        st.next_id :: List.range' (st.next_id + 1) k
      rw [h.1]
    · show (send_ids k ⟨hmInsert st.next_id 0 st.pending, st.next_id + 1⟩).2.next_id =
        st.next_id + (k + 1)
      rw [h.2]
      show st.next_id + 1 + k = st.next_id + (k + 1)
      omega

/-- C6: id allocation is monotonic and gap-free: next_id starts at 1 in a
new client state, each send_request uses the current next_id and increments
it by one, and a sequence of n requests starting at counter value k is
assigned exactly the ids k, k+1, ..., k+n-1, with no repeats. -/
theorem c6_id_allocation_gapfree (n : Nat) (st : LanguageServerState) :
    (send_ids n st).1 = List.range' st.next_id n ∧
    (send_ids n st).2.next_id = st.next_id + n ∧
    (send_ids n st).1.Nodup ∧
    new_language_server.next_id = 1 :=
  ⟨(send_ids_spec n st).1, (send_ids_spec n st).2,
    by rw [(send_ids_spec n st).1]; simp [List.nodup_range'], rfl⟩

/-- C7: encoding then decoding is the identity on the example message:
serializing the request with id 7, method foo and params a=1 into a frame
and reading that frame back yields exactly the serialized body, and that
body parses back to a structurally identical JSON value. -/
theorem c7_roundtrip :
    read_message (prepare_lsp_json (request_value 7 "foo"
        (Json.obj (.cons "a" (.num 1) .nil)))).data =
      .ok (renderJson (request_value 7 "foo" (Json.obj (.cons "a" (.num 1) .nil)))) ∧
    parseJsonTop (renderJson (request_value 7 "foo"
        (Json.obj (.cons "a" (.num 1) .nil)))).data =
      some (request_value 7 "foo" (Json.obj (.cons "a" (.num 1) .nil))) := by
  constructor
  · unfold read_message
    rw [readHeaders_step_len none 56 _ _ _ (by rfl) (by decide) (by rfl)]
    rw [readHeaders_stop _ _ _ _ (by rfl) (by rfl)]
    rfl
  · rfl

/-- C8 counterexample: the header line X: a: b, whose value contains the
separator, does not split into the name x and the value a-colon-space-b as
the claim states: the source splits on every separator occurrence, obtains
three tokens, and fails with the malformed-header error. -/
theorem c8_first_separator_counterexample :
    parse_header "X: a: b".data = .error (.unknown "malformed header: X: a: b") ∧
    splitCS "X: a: b".data = ["X".data, "a".data, "b".data] :=
  ⟨rfl, by decide⟩

/-- C8 (amended): header-line parsing splits the line on every occurrence of
the colon-space separator, trims and case-folds each token, and fails with a
malformed-header error unless exactly two tokens result; a line whose value
itself contains the separator therefore fails as malformed instead of
splitting on the first separator only. -/
theorem c8_split_requires_exactly_two_tokens (s : List Char)
    (h : (splitCS s).length ≠ 2) :
    parse_header s = .error (.unknown ("malformed header: " ++ String.mk s)) := by
  have hlen : ((splitCS s).map (fun t => lowerChars (trimChars t))).length ≠ 2 := by
    simpa using h
  rcases hm : (splitCS s).map (fun t => lowerChars (trimChars t)) with _ | ⟨a, _ | ⟨b, _ | ⟨c, tl⟩⟩⟩
  · unfold parse_header; rw [hm]
  · unfold parse_header; rw [hm]
  · rw [hm] at hlen; simp at hlen
  · unfold parse_header; rw [hm]

theorem c8_split_requires_exactly_two_tokens_witness :
    (splitCS "X: a: b".data).length ≠ 2 ∧
    parse_header "X: a: b".data =
      .error (.unknown ("malformed header: " ++ String.mk "X: a: b".data)) :=
  ⟨by decide, c8_split_requires_exactly_two_tokens "X: a: b".data (by decide)⟩

/-- C9 counterexample: when the stream write fails, send_request panics
rather than returning a transport error, and the callback registered for
the allocated id 1 is still present in the pending table afterwards: the
registration is not rolled back, contradicting the claim. -/
theorem c9_write_failure_counterexample :
    (send_request false new_language_server "initialize" (Json.obj .nil) 7).panicked = true ∧
    hmLookup 1 (send_request false new_language_server "initialize"
      (Json.obj .nil) 7).state.pending = some 7 :=
  ⟨rfl, rfl⟩

/-- C9 (amended): if writing the serialized frame to the outbound stream
fails, the expect call inside LanguageServer::write panics; no transport
error value is surfaced to the caller, and the pending-call registration
made before the write stays in the table under the allocated id, with the
id counter already incremented. -/
theorem c9_write_failure_panics_no_rollback (st : LanguageServerState)
    (method : String) (params : Json) (cb : Nat) :
    (send_request false st method params cb).panicked = true ∧
    (send_request false st method params cb).wrote = none ∧
    hmLookup st.next_id (send_request false st method params cb).state.pending = some cb ∧
    (send_request false st method params cb).state.next_id = st.next_id + 1 := by
  simp [send_request, hmInsert, hmLookup]

/-- C10: when the header block contains the content-length header twice,
frame reading succeeds, and the body length used is the value of the last
occurrence: each occurrence overwrites the previous one, and no
duplicate-header error exists. -/
theorem c10_last_content_length_wins (l1 l2 body : List Char) (a b : Nat)
    (h1 : '\n' ∉ l1) (h2 : '\n' ∉ l2)
    (t1 : trimChars (l1 ++ ['\r', '\n']) ≠ []) (t2 : trimChars (l2 ++ ['\r', '\n']) ≠ [])
    (p1 : parse_header (l1 ++ ['\r', '\n']) = .ok (.contentLength a))
    (p2 : parse_header (l2 ++ ['\r', '\n']) = .ok (.contentLength b))
    (hb : b ≤ body.length) :
    read_message (l1 ++ ['\r', '\n'] ++ (l2 ++ ['\r', '\n'] ++ ('\r' :: '\n' :: body))) =
      .ok (String.mk (body.take b)) := by
  have h1r : '\n' ∉ l1 ++ ['\r'] := by simp [h1]
  have h2r : '\n' ∉ l2 ++ ['\r'] := by simp [h2]
  have e1 : readLineChars (l1 ++ ['\r', '\n'] ++ (l2 ++ ['\r', '\n'] ++ ('\r' :: '\n' :: body)))
      = (l1 ++ ['\r', '\n'], l2 ++ ['\r', '\n'] ++ ('\r' :: '\n' :: body)) := by
    have := readLineChars_append (l1 ++ ['\r'])
      (l2 ++ ['\r', '\n'] ++ ('\r' :: '\n' :: body)) h1r
    simpa [List.append_assoc] using this
  have e2 : readLineChars (l2 ++ ['\r', '\n'] ++ ('\r' :: '\n' :: body))
      = (l2 ++ ['\r', '\n'], '\r' :: '\n' :: body) := by
    have := readLineChars_append (l2 ++ ['\r']) ('\r' :: '\n' :: body) h2r
    simpa [List.append_assoc] using this
  have e3 : readLineChars ('\r' :: '\n' :: body) = (['\r', '\n'], body) := by
    simpa using readLineChars_append ['\r'] body (by decide)
  have s1 := readHeaders_step_len none a _ _ _ e1 t1 p1
  have s2 := readHeaders_step_len (some a) b _ _ _ e2 t2 p2
  have s3 := readHeaders_stop (some b) _ _ _ e3 (by decide)
  unfold read_message
  rw [s1, s2, s3]
  simp [readExact, hb]

theorem c10_last_content_length_wins_witness :
    ('\n' ∉ "Content-Length: 10".data) ∧ ('\n' ∉ "Content-Length: 5".data) ∧
    trimChars ("Content-Length: 10".data ++ ['\r', '\n']) ≠ [] ∧
    trimChars ("Content-Length: 5".data ++ ['\r', '\n']) ≠ [] ∧
    parse_header ("Content-Length: 10".data ++ ['\r', '\n']) = .ok (.contentLength 10) ∧
    parse_header ("Content-Length: 5".data ++ ['\r', '\n']) = .ok (.contentLength 5) ∧
    5 ≤ "helloworld".data.length ∧
    read_message ("Content-Length: 10".data ++ ['\r', '\n'] ++
        ("Content-Length: 5".data ++ ['\r', '\n'] ++
          ('\r' :: '\n' :: "helloworld".data))) =
      .ok (String.mk ("helloworld".data.take 5)) :=
  ⟨by decide, by decide, by decide, by decide, by rfl, by rfl, by decide,
    c10_last_content_length_wins "Content-Length: 10".data "Content-Length: 5".data
      "helloworld".data 10 5 (by decide) (by decide) (by decide) (by decide)
      (by rfl) (by rfl) (by decide)⟩
